import Mathlib

/-!
Verification of the inference post-processing and risk-stratification layer of
the Healthcare Disease Detection Platform (`src/Api/ApiModels.py`).

The Python source is shallowly embedded: Python floats are modelled as exact
rationals (`ℚ`), Python lists as `List`, Python dicts holding request payloads
as structures of `Option` fields, fallible request handlers as `Except`.
All definitions below are transcribed from the source file; line numbers in
doc comments refer to `src/Api/ApiModels.py`.
-/

/-- Result record produced by `predict_diabetes_with_risk`
(`ApiModels.py` lines 390-406). -/
structure RiskAssessment where
  original_class : String
  binary_result : String
  risk_level : String
  clinical_status : String
  n_prob : ℚ
  p_prob : ℚ
  y_prob : ℚ
  recommendation : String
  hba1c : ℚ
  bmi : ℚ
deriving DecidableEq

/-- Builds the Python dict `{cls: idx for idx, cls in enumerate(model.classes_)}`
(line 319): later duplicate keys overwrite earlier ones, and lookup of an
absent key yields nothing. -/
def classIndexAux : List String → ℕ → (String → Option ℕ) → (String → Option ℕ)
  | [], _, f => f
  | c :: rest, i, f => classIndexAux rest (i + 1) (fun x => if x = c then some i else f x)

/-- The `class_indices` dict of line 319. -/
def class_indices (classes : List String) : String → Option ℕ :=
  classIndexAux classes 0 (fun _ => none)

/-- `probabilities[class_indices[cls]] if cls in class_indices else 0`
(lines 320-322). -/
def extractClassProb (classes : List String) (probabilities : List ℚ) (cls : String) : ℚ :=
  match class_indices classes cls with
  | some idx => probabilities.getD idx 0
  | none => 0

/-- Lines 315-327: the (n_prob, p_prob, y_prob) triple. When the classifier
exposes `predict_proba` the per-class probabilities are looked up with a
0 default for absent classes; otherwise the dummy value 0.33 is placed at the
predicted class and 0 at the others. -/
def computeProbs (prediction : String) (classes : List String)
    (proba : Option (List ℚ)) : ℚ × ℚ × ℚ :=
  match proba with
  | some probabilities =>
      (extractClassProb classes probabilities "N",
       extractClassProb classes probabilities "P",
       extractClassProb classes probabilities "Y")
  | none =>
      (if prediction = "N" then 33/100 else 0,
       if prediction = "P" then 33/100 else 0,
       if prediction = "Y" then 33/100 else 0)

/-- Lines 334-369: the metabolic risk stratifier. Returns
(binary_result, clinical_status, risk_level). -/
def riskLevelFor (prediction : String) (n_prob p_prob y_prob hba1c bmi : ℚ) :
    String × String × String :=
  if prediction = "Y" then
    ("Positive", "Diabetic",
      if y_prob > 9/10 ∨ hba1c > 8 then "High"
      else if y_prob > 7/10 ∨ hba1c > 7 then "Medium"
      else "Low")
  else if prediction = "P" then
    ("Negative", "Pre-diabetic",
      if hba1c ≥ 6 ∨ bmi ≥ 30 ∨ p_prob > 9/10 then "High"
      else if hba1c ≥ 58/10 ∨ bmi ≥ 27 ∨ p_prob > 7/10 then "Medium"
      else "Low")
  else
    ("Negative", "Non-diabetic",
      if p_prob > 3/10 ∨ hba1c ≥ 57/10 then "Medium"
      else if bmi > 27 ∨ y_prob > 1/10 then "Low"
      else "Negative")

/-- Lines 371-387: the fixed recommendation lookup on
{binary result, clinical status, risk level}. -/
def recommendationFor (binary_result status risk_level : String) : String :=
  if binary_result = "Positive" then
    if risk_level = "High" then
      "Immediate medical attention required. Comprehensive diabetes management needed."
    else if risk_level = "Medium" then
      "Medical consultation required. Medication may be needed."
    else
      "Medical consultation recommended. Early diabetes management needed."
  else if status = "Pre-diabetic" then
    "Immediate lifestyle intervention. Follow-up in 3 months."
  else
    if risk_level = "Medium" then
      "Lifestyle changes recommended. Follow-up in 6 months."
    else if risk_level = "Low" then
      "Minor lifestyle adjustments recommended. Follow-up in 1 year."
    else
      "Continue healthy lifestyle. Regular check-up in 1 year."

/-- `predict_diabetes_with_risk` (lines 290-406), with the classifier
abstracted to its observable output: a predicted label `prediction`, the
ordered class list `classes`, and `proba` — the probability row when
`predict_proba` is available, `none` otherwise. `hba1c` and `bmi` are the
clinical values read from `patient_data` (lines 330-331). -/
def predictDiabetesWithRisk (prediction : String) (classes : List String)
    (proba : Option (List ℚ)) (hba1c bmi : ℚ) : RiskAssessment :=
  let probs := computeProbs prediction classes proba
  let bsr := riskLevelFor prediction probs.1 probs.2.1 probs.2.2 hba1c bmi
  { original_class := prediction
  , binary_result := bsr.1
  , clinical_status := bsr.2.1
  , risk_level := bsr.2.2
  , n_prob := probs.1
  , p_prob := probs.2.1
  , y_prob := probs.2.2
  , recommendation := recommendationFor bsr.1 bsr.2.1 bsr.2.2
  , hba1c := hba1c
  , bmi := bmi }

/-- `get_risk_level` for heart disease (lines 409-417). -/
def get_risk_level (probability : ℚ) : String :=
  if probability < 1/2 then "LOW_RISK"
  else if probability < 3/4 then "MODERATE_RISK"
  else if probability < 9/10 then "HIGH_RISK"
  else "VERY_HIGH_RISK"

/-- The canonical dict lookup misses every key that is not in the class list. -/
lemma classIndexAux_not_mem (classes : List String) (c : String) (hc : c ∉ classes) :
    ∀ (i : ℕ) (f : String → Option ℕ), classIndexAux classes i f c = f c := by
  induction classes with
  | nil => intro i f; rfl
  | cons d rest ih =>
    intro i f
    have hcd : c ≠ d := fun h => hc (h ▸ List.mem_cons_self d rest)
    have hcrest : c ∉ rest := fun h => hc (List.mem_cons_of_mem d h)
    rw [classIndexAux, ih hcrest]
    simp [hcd]

lemma class_indices_eq_none (classes : List String) (c : String) (hc : c ∉ classes) :
    class_indices classes c = none :=
  classIndexAux_not_mem classes c hc 0 (fun _ => none)

lemma extractClassProb_not_mem (classes : List String) (probs : List ℚ) (c : String)
    (hc : c ∉ classes) : extractClassProb classes probs c = 0 := by
  unfold extractClassProb
  rw [class_indices_eq_none classes c hc]

/-- Claim C1: the metabolic risk stratifier is a pure function of the predicted
class, the class probabilities and the clinical indicators HbA1c and BMI, and
computes exactly the tier table of the spec: predicted Y gives status
"Diabetic" and binary result "Positive" with tier High if y_prob>0.9 or
HbA1c>8.0, else Medium if y_prob>0.7 or HbA1c>7.0, else Low; predicted P gives
"Pre-diabetic"/"Negative" with tier High if HbA1c≥6.0 or BMI≥30 or p_prob>0.9,
else Medium if HbA1c≥5.8 or BMI≥27 or p_prob>0.7, else Low; predicted N gives
"Non-diabetic"/"Negative" with tier Medium if p_prob>0.3 or HbA1c≥5.7, else
Low if BMI>27 or y_prob>0.1, else the fourth, lowest tier "Negative". -/
theorem metabolic_risk_rule_table :
    ∀ n_prob p_prob y_prob hba1c bmi : ℚ,
      riskLevelFor "Y" n_prob p_prob y_prob hba1c bmi =
        ("Positive", "Diabetic",
          if y_prob > 9/10 ∨ hba1c > 8 then "High"
          else if y_prob > 7/10 ∨ hba1c > 7 then "Medium"
          else "Low") ∧
      riskLevelFor "P" n_prob p_prob y_prob hba1c bmi =
        ("Negative", "Pre-diabetic",
          if hba1c ≥ 6 ∨ bmi ≥ 30 ∨ p_prob > 9/10 then "High"
          else if hba1c ≥ 58/10 ∨ bmi ≥ 27 ∨ p_prob > 7/10 then "Medium"
          else "Low") ∧
      riskLevelFor "N" n_prob p_prob y_prob hba1c bmi =
        ("Negative", "Non-diabetic",
          if p_prob > 3/10 ∨ hba1c ≥ 57/10 then "Medium"
          else if bmi > 27 ∨ y_prob > 1/10 then "Low"
          else "Negative") := by
  intro n_prob p_prob y_prob hba1c bmi
  refine ⟨?_, ?_, ?_⟩ <;>
    simp only [riskLevelFor, String.reduceEq, reduceIte]

/-- Claim C2: the cardiac risk-tier function partitions [0,1] into four
half-open tiers with exact boundaries at 0.50, 0.75 and 0.90, and the six
boundary probes of the spec land in the stated tiers. -/
theorem cardiac_risk_tier_boundaries :
    (∀ p : ℚ,
      (get_risk_level p = "LOW_RISK" ↔ p < 1/2) ∧
      (get_risk_level p = "MODERATE_RISK" ↔ 1/2 ≤ p ∧ p < 3/4) ∧
      (get_risk_level p = "HIGH_RISK" ↔ 3/4 ≤ p ∧ p < 9/10) ∧
      (get_risk_level p = "VERY_HIGH_RISK" ↔ 9/10 ≤ p)) ∧
    get_risk_level (4999/10000) = "LOW_RISK" ∧
    get_risk_level (1/2) = "MODERATE_RISK" ∧
    get_risk_level (7499/10000) = "MODERATE_RISK" ∧
    get_risk_level (3/4) = "HIGH_RISK" ∧
    get_risk_level (8999/10000) = "HIGH_RISK" ∧
    get_risk_level (9/10) = "VERY_HIGH_RISK" := by
  refine ⟨?_, by norm_num [get_risk_level], by norm_num [get_risk_level],
    by norm_num [get_risk_level], by norm_num [get_risk_level],
    by norm_num [get_risk_level], by norm_num [get_risk_level]⟩
  intro p
  refine ⟨?_, ?_, ?_, ?_⟩ <;> unfold get_risk_level <;> split_ifs with h1 h2 h3 <;>
    first
      | exact iff_of_true rfl h1
      | exact iff_of_true rfl ⟨not_lt.mp h1, h2⟩
      | exact iff_of_true rfl ⟨not_lt.mp h2, h3⟩
      | exact iff_of_true rfl (not_lt.mp h3)
      | exact iff_of_false (by decide) h1
      | exact iff_of_false (by decide) (by rintro ⟨a, b⟩; linarith)
      | exact iff_of_false (by decide) (by intro a; linarith)

/-- Claim C6 counterexample: seven pairwise-distinct recommendation strings
are reachable through the metabolic pipeline, so the recommendation lookup
draws from more than six literal messages. -/
theorem recommendation_six_messages_counterexample :
    List.Pairwise (· ≠ ·)
      [(predictDiabetesWithRisk "Y" ["N", "P", "Y"] (some [2/100, 3/100, 95/100]) 7 25).recommendation,
       (predictDiabetesWithRisk "Y" ["N", "P", "Y"] (some [1/10, 1/10, 8/10]) 6 25).recommendation,
       (predictDiabetesWithRisk "Y" ["N", "P", "Y"] (some [3/10, 2/10, 5/10]) (65/10) 25).recommendation,
       (predictDiabetesWithRisk "P" ["N", "P", "Y"] (some [1/10, 8/10, 1/10]) 5 20).recommendation,
       (predictDiabetesWithRisk "N" ["N", "P", "Y"] (some [55/100, 4/10, 5/100]) 5 20).recommendation,
       (predictDiabetesWithRisk "N" ["N", "P", "Y"] (some [85/100, 1/10, 5/100]) 5 28).recommendation,
       (predictDiabetesWithRisk "N" ["N", "P", "Y"] (some [85/100, 1/10, 5/100]) 5 22).recommendation] := by
  simp only [predictDiabetesWithRisk, computeProbs, extractClassProb, class_indices,
    classIndexAux, riskLevelFor, recommendationFor, String.reduceEq, reduceIte]
  norm_num
  decide

/-- Claim C6 as amended: the metabolic recommendation string is selected by a
fixed lookup on the triple {binary result, clinical status, risk tier} and
every reachable combination maps to one of exactly seven literal messages. -/
theorem recommendation_seven_messages :
    ∀ (prediction : String) (classes : List String) (proba : Option (List ℚ))
      (hba1c bmi : ℚ),
      (predictDiabetesWithRisk prediction classes proba hba1c bmi).recommendation ∈
        ["Immediate medical attention required. Comprehensive diabetes management needed.",
         "Medical consultation required. Medication may be needed.",
         "Medical consultation recommended. Early diabetes management needed.",
         "Immediate lifestyle intervention. Follow-up in 3 months.",
         "Lifestyle changes recommended. Follow-up in 6 months.",
         "Minor lifestyle adjustments recommended. Follow-up in 1 year.",
         "Continue healthy lifestyle. Regular check-up in 1 year."] := by
  intro prediction classes proba hba1c bmi
  simp only [predictDiabetesWithRisk, recommendationFor]
  split_ifs <;> simp

/-- Claim C7: when the metabolic classifier exposes no probabilities the
adapter synthesizes a degenerate distribution — 0.33 at the predicted class
and 0 for the other classes — instead of failing, and when probabilities are
available any of the classes N, P, Y absent from the class list of the classifier
receives probability 0. -/
theorem probability_adapter_defaults :
    ∀ (prediction : String) (classes : List String) (probs : List ℚ),
      ((computeProbs prediction classes none).1 =
        if prediction = "N" then 33/100 else 0) ∧
      ((computeProbs prediction classes none).2.1 =
        if prediction = "P" then 33/100 else 0) ∧
      ((computeProbs prediction classes none).2.2 =
        if prediction = "Y" then 33/100 else 0) ∧
      ("N" ∉ classes → (computeProbs prediction classes (some probs)).1 = 0) ∧
      ("P" ∉ classes → (computeProbs prediction classes (some probs)).2.1 = 0) ∧
      ("Y" ∉ classes → (computeProbs prediction classes (some probs)).2.2 = 0) := by
  intro prediction classes probs
  refine ⟨rfl, rfl, rfl, ?_, ?_, ?_⟩ <;>
    intro hc <;>
    simp only [computeProbs] <;>
    rw [extractClassProb_not_mem _ _ _ hc]

/-- Witness for `probability_adapter_defaults`: the class "P" is absent from
the one-class list ["N"] and indeed receives probability 0. -/
theorem probability_adapter_defaults_witness :
    ("P" ∉ (["N"] : List String)) ∧ (computeProbs "N" ["N"] (some [1])).2.1 = 0 :=
  ⟨by decide, (probability_adapter_defaults "N" ["N"] [1]).2.2.2.2.1 (by decide)⟩

/-- `SymptomRequest.validate_top_n` (lines 268-272): a supplied value outside
[1,10] is replaced by 3, an in-range value is kept. -/
def validate_top_n (top_n : ℤ) : ℤ :=
  if top_n < 1 ∨ top_n > 10 then 3 else top_n

/-- The effective `top_n` of a symptom request: an omitted field takes the
pydantic default 3 (line 260, validators do not run on defaults); a supplied
field goes through `validate_top_n`. -/
def effectiveTopN : Option ℤ → ℤ
  | none => 3
  | some t => validate_top_n t

/-- Claim C9: the effective top_n always lies in [1,10]; a supplied value
outside [1,10] is replaced by the default 3 rather than rejected, an omitted
value defaults to 3, and an in-range value is kept. -/
theorem top_n_clamped :
    (∀ t : Option ℤ, 1 ≤ effectiveTopN t ∧ effectiveTopN t ≤ 10) ∧
    effectiveTopN none = 3 ∧
    (∀ t : ℤ, t < 1 ∨ 10 < t → effectiveTopN (some t) = 3) ∧
    (∀ t : ℤ, 1 ≤ t → t ≤ 10 → effectiveTopN (some t) = t) := by
  refine ⟨?_, rfl, ?_, ?_⟩
  · rintro (_ | t)
    · exact ⟨by norm_num [effectiveTopN], by norm_num [effectiveTopN]⟩
    · simp only [effectiveTopN, validate_top_n]
      split_ifs with h
      · exact ⟨by norm_num, by norm_num⟩
      · push_neg at h
        exact ⟨h.1, h.2⟩
  · intro t ht
    simp only [effectiveTopN, validate_top_n, if_pos ht]
  · intro t h1 h10
    have : ¬(t < 1 ∨ t > 10) := by omega
    simp only [effectiveTopN, validate_top_n, if_neg this]

/-- Witness for `top_n_clamped`: the out-of-range value 15 is replaced by 3,
and the in-range value 7 is kept. -/
theorem top_n_clamped_witness :
    ((15 : ℤ) < 1 ∨ (10 : ℤ) < 15) ∧ effectiveTopN (some 15) = 3 ∧
    (1 : ℤ) ≤ 7 ∧ (7 : ℤ) ≤ 10 ∧ effectiveTopN (some 7) = 7 :=
  ⟨by norm_num, top_n_clamped.2.2.1 15 (by norm_num), by norm_num, by norm_num,
    top_n_clamped.2.2.2 7 (by norm_num) (by norm_num)⟩

/-- The JSON body of a named-field metabolic prediction request: each of the
eleven schema fields may be present or absent (`predict_diabetes`,
lines 634-672, the branch for requests without a "data" key). -/
structure DiabetesNamedRequest where
  gender_field : Option ℚ
  age_field : Option ℚ
  urea_field : Option ℚ
  cr_field : Option ℚ
  hba1c_field : Option ℚ
  chol_field : Option ℚ
  tg_field : Option ℚ
  hdl_field : Option ℚ
  ldl_field : Option ℚ
  vldl_field : Option ℚ
  bmi_field : Option ℚ

/-- Lines 639-651: `getattr(request, name, None)` where `request` is the
parsed JSON body, a Python `dict`. A `dict` exposes none of the schema field
names as attributes, so `getattr` returns the supplied default `None` for
every field, whatever the request contains; because a default is supplied,
`getattr` never raises, so the `except (AttributeError, TypeError)` fallback
that would read the dict keys (lines 655-668) is unreachable. -/
def dictGetattr (_req : DiabetesNamedRequest) (_field : String) : Option ℚ :=
  none

/-- The named-field branch of `predict_diabetes` (lines 634-699): collect the
eleven values via `getattr`, reject with the 400 message when HbA1c or BMI is
missing (lines 679-683), otherwise fill remaining `None`s with 0
(lines 686-692) and run the risk assessment. `assess` abstracts the
model-backed `predict_diabetes_with_risk` call on the completed value list. -/
def predictDiabetesNamed (assess : List ℚ → RiskAssessment)
    (req : DiabetesNamedRequest) : Except String RiskAssessment :=
  let values : List (Option ℚ) :=
    [dictGetattr req "Gender", dictGetattr req "AGE", dictGetattr req "Urea",
     dictGetattr req "Cr", dictGetattr req "HbA1c", dictGetattr req "Chol",
     dictGetattr req "TG", dictGetattr req "HDL", dictGetattr req "LDL",
     dictGetattr req "VLDL", dictGetattr req "BMI"]
  let hba1c := values.getD 4 none
  let bmi := values.getD 10 none
  if hba1c = none ∨ bmi = none then
    .error "Missing required parameters: HbA1c and BMI must be provided"
  else
    .ok (assess (values.map (fun v => v.getD 0)))

/-- One normalization step: spaces and hyphens become underscores. -/
def canonChar (c : Char) : Char :=
  if c = '-' ∨ c = ' ' then '_' else c

/-- `symptom.replace('-', '_').replace(' ', '_')` (line 800). Both patterns
are single characters and the replacement introduces neither of them, so the
two sequential replacements equal this character-wise map; line 818 performs
the same two replacements in the opposite order, which is the same map. -/
def normalizeToken (s : String) : String :=
  ⟨s.data.map canonChar⟩

/-- The Python substring test `needle in haystack` (line 830). -/
def pyContains (haystack needle : String) : Bool :=
  decide (needle.data <:+: haystack.data)

/-- Python dict write `d[k] = v`: overwrite the value if the key is present,
otherwise append, preserving insertion order. -/
def dictSet (d : List (String × String)) (k v : String) : List (String × String) :=
  if d.any (fun kv => kv.1 == k) then
    d.map (fun kv => if kv.1 == k then (k, v) else kv)
  else d ++ [(k, v)]

/-- Lines 827-831: the suggestion search. For each invalid token, every
vocabulary entry whose normalized form contains the token or is contained in
it is written to the suggestion dict; the dict write keeps only the last such
entry per invalid token. -/
def buildSuggestions (vocab : List String) (invalids : List String) :
    List (String × String) :=
  invalids.foldl
    (fun sugg invalid =>
      (vocab.zip (vocab.map normalizeToken)).foldl
        (fun sugg2 vn =>
          if pyContains vn.2 invalid || pyContains invalid vn.2 then
            dictSet sugg2 invalid vn.1
          else sugg2)
        sugg)
    []

/-- Lines 843-849: a zero vector of vocabulary length with 1.0 written at
`all_symptoms_list_normalized.index(symptom)` for each submitted symptom. -/
def encodeFeatures (vocabNorm : List String) (tokens : List String) : List ℚ :=
  tokens.foldl (fun features symptom => features.set (List.indexOf symptom vocabNorm) 1)
    (List.replicate vocabNorm.length 0)

/-- The probability read out of the distribution vector at a class index. -/
def prOf (p : List ℚ) (i : ℕ) : ℚ := p.getD i 0

/-- Ascending comparison of class indices by the lexicographic key
(probability, index). -/
def argsortLE (p : List ℚ) (i j : ℕ) : Prop :=
  prOf p i < prOf p j ∨ (prOf p i = prOf p j ∧ i ≤ j)

instance (p : List ℚ) : DecidableRel (argsortLE p) := fun i j => by
  unfold argsortLE
  infer_instance

instance (p : List ℚ) : IsTotal ℕ (argsortLE p) := ⟨by
  intro a b
  rcases lt_trichotomy (prOf p a) (prOf p b) with h | h | h
  · exact Or.inl (Or.inl h)
  · rcases Nat.le_total a b with hle | hle
    · exact Or.inl (Or.inr ⟨h, hle⟩)
    · exact Or.inr (Or.inr ⟨h.symm, hle⟩)
  · exact Or.inr (Or.inl h)⟩

instance (p : List ℚ) : IsTrans ℕ (argsortLE p) := ⟨by
  intro a b c hab hbc
  rcases hab with h1 | ⟨h1, h1'⟩ <;> rcases hbc with h2 | ⟨h2, h2'⟩
  · exact Or.inl (h1.trans h2)
  · exact Or.inl (by rw [← h2]; exact h1)
  · exact Or.inl (by rw [h1]; exact h2)
  · exact Or.inr ⟨h1.trans h2, h1'.trans h2'⟩⟩

/-- `prediction_probabilities.argsort()` (line 858): the ascending argsort of
the probability vector. numpy sorts a short float array with a stable
insertion sort, so equal values keep their ascending index order: the result
is the index list ordered by the lexicographic key (probability, index). -/
def argsort (p : List ℚ) : List ℕ :=
  List.insertionSort (argsortLE p) (List.range p.length)

/-- Python slice `a[-n:]` (line 858); for n = 0 Python returns the whole
list. -/
def npTakeLast {α : Type} (l : List α) (n : ℕ) : List α :=
  if n = 0 then l else l.drop (l.length - n)

/-- `prediction_probabilities.argsort()[-top_n:][::-1]` (line 858). -/
def topIndices (p : List ℚ) (top_n : ℕ) : List ℕ :=
  (npTakeLast (argsort p) top_n).reverse

/-- A row of the precaution reference table: a disease name and the four
`Precaution_i` cells, each possibly missing (pandas NaN, a non-string). -/
structure PrecautionRow where
  disease : String
  precaution_1 : Option String
  precaution_2 : Option String
  precaution_3 : Option String
  precaution_4 : Option String

/-- Lines 867-874: first matching row of the description table, defaulting to
the fixed text when no row matches. -/
def lookupDescription (descTable : List (String × String)) (disease : String) : String :=
  match descTable.find? (fun row => row.1 == disease) with
  | some row => row.2
  | none => "No description available."

/-- Line 882: a precaution cell survives when it is a string whose strip is
truthy (non-empty). -/
def keepPrecaution : Option String → Option String
  | some s => if s.trim ≠ "" then some s else none
  | none => none

/-- Lines 876-883: the up-to-four precaution strings of the first matching
row, blank and missing cells skipped; no row gives the empty list. -/
def lookupPrecautions (precTable : List PrecautionRow) (d : String) : List String :=
  match precTable.find? (fun row => row.disease == d) with
  | some row =>
      [row.precaution_1, row.precaution_2, row.precaution_3,
        row.precaution_4].filterMap keepPrecaution
  | none => []

/-- `round(float(confidence), 2)` (line 887): on the rational model, the
nearest number of hundredths. -/
def round2 (q : ℚ) : ℚ := (round (q * 100) : ℤ) / 100

/-- The `PredictionItem` response model (lines 274-278). -/
structure PredictionItem where
  disease : String
  probability : ℚ
  description : String
  precautions : List String

/-- The two 400-error shapes of `predict_disease` (lines 808-812 and
833-840). -/
inductive SymptomFailure where
  | noSymptoms
  | invalidSymptoms (invalid : List String) (suggestions : List (String × String))

/-- The core of `predict_disease` (lines 795-903): normalize the submitted
tokens, reject when none remain or when any is absent from the normalized
vocabulary (with substring suggestions), otherwise encode the indicator
vector, rank the distribution of the classifier and enrich the top indices. The
classifier is abstracted to `predictProba`, its label decoder
(`encoder.inverse_transform`) to `decoder`. -/
def predictDiseaseCore (vocab : List String) (predictProba : List ℚ → List ℚ)
    (decoder : ℕ → String) (descTable : List (String × String))
    (precTable : List PrecautionRow) (symptoms : List String) (top_n : ℕ) :
    Except SymptomFailure (List PredictionItem) :=
  let symptoms_input := symptoms.map normalizeToken
  if symptoms_input.isEmpty then .error .noSymptoms
  else
    let vocabNorm := vocab.map normalizeToken
    let invalid := symptoms_input.filter (fun s => !(vocabNorm.contains s))
    if invalid.isEmpty then
      let features := encodeFeatures vocabNorm symptoms_input
      let probs := predictProba features
      .ok ((topIndices probs top_n).map (fun idx =>
        { disease := decoder idx
        , probability := round2 (prOf probs idx)
        , description := lookupDescription descTable (decoder idx)
        , precautions := lookupPrecautions precTable (decoder idx) }))
    else .error (.invalidSymptoms invalid (buildSuggestions vocab invalid))

/-- Claim C4: a symptom request containing at least one token whose canonical
form is absent from the normalized vocabulary is rejected as a whole with the
single aggregated invalid-symptoms error; the token list of the error contains
every unmatched token (none is silently dropped), its suggestion dict is the
substring-based suggestion search over that list, and no prediction is
produced. -/
theorem unmatched_symptoms_all_or_nothing :
    ∀ (vocab : List String) (predictProba : List ℚ → List ℚ) (decoder : ℕ → String)
      (descTable : List (String × String)) (precTable : List PrecautionRow)
      (symptoms : List String) (top_n : ℕ),
      (∃ s ∈ symptoms, normalizeToken s ∉ vocab.map normalizeToken) →
      ∃ inv sugg,
        predictDiseaseCore vocab predictProba decoder descTable precTable symptoms top_n
          = .error (.invalidSymptoms inv sugg) ∧
        (∀ s ∈ symptoms, normalizeToken s ∉ vocab.map normalizeToken →
          normalizeToken s ∈ inv) ∧
        sugg = buildSuggestions vocab inv := by
  intro vocab predictProba decoder descTable precTable symptoms top_n h
  obtain ⟨s0, hs0, hs0n⟩ := h
  have hmem0 : normalizeToken s0 ∈ symptoms.map normalizeToken :=
    List.mem_map_of_mem _ hs0
  have h1 : (symptoms.map normalizeToken).isEmpty = false := by
    simpa [List.isEmpty_iff] using List.ne_nil_of_mem hmem0
  have hinv0 : normalizeToken s0 ∈
      (symptoms.map normalizeToken).filter
        (fun s => !((vocab.map normalizeToken).contains s)) := by
    refine List.mem_filter.mpr ⟨hmem0, ?_⟩
    simp only [Bool.not_eq_true', ← Bool.not_eq_true]
    intro hc
    exact hs0n (List.elem_iff.mp hc)
  have h2 : ((symptoms.map normalizeToken).filter
      (fun s => !((vocab.map normalizeToken).contains s))).isEmpty = false := by
    simpa [List.isEmpty_iff] using List.ne_nil_of_mem hinv0
  refine ⟨(symptoms.map normalizeToken).filter
      (fun s => !((vocab.map normalizeToken).contains s)),
    buildSuggestions vocab ((symptoms.map normalizeToken).filter
      (fun s => !((vocab.map normalizeToken).contains s))), ?_, ?_, rfl⟩
  · simp only [predictDiseaseCore, h1, h2, Bool.false_eq_true, if_false]
  · intro s hs hsn
    refine List.mem_filter.mpr ⟨List.mem_map_of_mem _ hs, ?_⟩
    simp only [Bool.not_eq_true', ← Bool.not_eq_true]
    intro hc
    exact hsn (List.elem_iff.mp hc)

/-- Witness for `unmatched_symptoms_all_or_nothing`: the single token "xyz"
does not normalize into the vocabulary ["headache"], and the request is
rejected with an error listing it. -/
theorem unmatched_symptoms_all_or_nothing_witness :
    (∃ s ∈ (["xyz"] : List String),
      normalizeToken s ∉ (["headache"] : List String).map normalizeToken) ∧
    ∃ inv sugg,
      predictDiseaseCore ["headache"] (fun _ => []) (fun _ => "") [] [] ["xyz"] 3
        = .error (.invalidSymptoms inv sugg) ∧
      (∀ s ∈ (["xyz"] : List String),
        normalizeToken s ∉ (["headache"] : List String).map normalizeToken →
        normalizeToken s ∈ inv) ∧
      sugg = buildSuggestions ["headache"] inv :=
  ⟨by decide,
    unmatched_symptoms_all_or_nothing ["headache"] (fun _ => []) (fun _ => "")
      [] [] ["xyz"] 3 (by decide)⟩

/-- Claim C8: the differential-diagnosis enrichment degrades gracefully — a
disease with no description row gets the fixed default text, the precaution
list never exceeds four entries and never contains a blank or
whitespace-only string, and a disease with no precaution row gets the empty
list; both lookups are total, so missing reference rows never fail a
request. -/
theorem enrichment_graceful_defaults :
    ∀ (descTable : List (String × String)) (precTable : List PrecautionRow)
      (d : String),
      ((∀ row ∈ descTable, row.1 ≠ d) →
        lookupDescription descTable d = "No description available.") ∧
      (lookupPrecautions precTable d).length ≤ 4 ∧
      (∀ s ∈ lookupPrecautions precTable d, s.trim ≠ "") ∧
      ((∀ row ∈ precTable, row.disease ≠ d) → lookupPrecautions precTable d = []) := by
  intro descTable precTable d
  refine ⟨?_, ?_, ?_, ?_⟩
  · intro hnone
    unfold lookupDescription
    rw [List.find?_eq_none.mpr (by intro row hrow; simpa using hnone row hrow)]
  · unfold lookupPrecautions
    rcases hfind : precTable.find? (fun row => row.disease == d) with _ | row
    · rw [hfind]
      simp
    · rw [hfind]
      exact List.length_filterMap_le _ _
  · intro s hs
    unfold lookupPrecautions at hs
    rcases hfind : precTable.find? (fun row => row.disease == d) with _ | row
    · rw [hfind] at hs
      simp at hs
    · rw [hfind] at hs
      obtain ⟨c, -, hc⟩ := List.mem_filterMap.mp hs
      rcases c with _ | c
      · simp [keepPrecaution] at hc
      · simp only [keepPrecaution] at hc
        split at hc
        · cases hc
          assumption
        · cases hc
  · intro hnone
    unfold lookupPrecautions
    rw [List.find?_eq_none.mpr (by intro row hrow; simpa using hnone row hrow)]

/-- Witness for `enrichment_graceful_defaults`: a disease absent from a
one-row description table receives the default description. -/
theorem enrichment_graceful_defaults_witness :
    (∀ row ∈ ([("Flu", "An illness.")] : List (String × String)), row.1 ≠ "Migraine") ∧
    lookupDescription [("Flu", "An illness.")] "Migraine" = "No description available." :=
  ⟨by decide, (enrichment_graceful_defaults [("Flu", "An illness.")] [] "Migraine").1
    (by decide)⟩

lemma encodeFeatures_foldl_length (vocabNorm : List String) :
    ∀ (tokens : List String) (acc : List ℚ),
      (tokens.foldl (fun fs s => fs.set (List.indexOf s vocabNorm) 1) acc).length
        = acc.length := by
  intro tokens
  induction tokens with
  | nil => intro acc; rfl
  | cons t ts ih =>
    intro acc
    rw [List.foldl_cons, ih, List.length_set]

/-- The value written by the encoding loop at each vocabulary index: 1 where
the entry has been submitted, the starting value elsewhere. -/
lemma encodeFeatures_foldl_getD (vocabNorm : List String) (hnd : vocabNorm.Nodup) :
    ∀ (tokens : List String), (∀ t ∈ tokens, t ∈ vocabNorm) →
    ∀ (acc : List ℚ), acc.length = vocabNorm.length →
    ∀ i, i < vocabNorm.length →
      (tokens.foldl (fun fs s => fs.set (List.indexOf s vocabNorm) 1) acc).getD i 0
        = if vocabNorm.getD i "" ∈ tokens then 1 else acc.getD i 0 := by
  intro tokens
  induction tokens with
  | nil =>
    intro _ acc _ i _
    simp
  | cons t ts ih =>
    intro hsub acc hlen i hi
    have ht : t ∈ vocabNorm := hsub t (List.mem_cons_self t ts)
    have hts : ∀ x ∈ ts, x ∈ vocabNorm := fun x hx => hsub x (List.mem_cons_of_mem t hx)
    have hlen' : (acc.set (List.indexOf t vocabNorm) 1).length = vocabNorm.length := by
      rw [List.length_set]
      exact hlen
    rw [List.foldl_cons, ih hts _ hlen' i hi]
    by_cases hmem : vocabNorm.getD i "" ∈ ts
    · rw [if_pos hmem, if_pos (List.mem_cons_of_mem t hmem)]
    · rw [if_neg hmem]
      have hidx : List.indexOf t vocabNorm < vocabNorm.length :=
        List.indexOf_lt_length.mpr ht
      have hiacc : i < acc.length := hlen ▸ hi
      have hset : (acc.set (List.indexOf t vocabNorm) 1).getD i 0
          = if List.indexOf t vocabNorm = i then 1 else acc.getD i 0 := by
        rw [List.getD_eq_getElem _ _ (by rw [List.length_set]; exact hiacc),
          List.getElem_set]
        split_ifs with he
        · rfl
        · rw [List.getD_eq_getElem _ _ hiacc]
      rw [hset]
      have hgd : vocabNorm.getD i "" = vocabNorm[i] := List.getD_eq_getElem _ _ hi
      by_cases heq : vocabNorm.getD i "" = t
      · have : List.indexOf t vocabNorm = i := by
          rw [← heq, hgd]
          exact List.indexOf_getElem hnd i hi
        rw [if_pos this, if_pos (by rw [heq]; exact List.mem_cons_self t ts)]
      · have hne : List.indexOf t vocabNorm ≠ i := by
          intro he
          apply heq
          subst he
          rw [hgd]
          exact List.getElem_indexOf hidx
        rw [if_neg hne, if_neg (by
          intro hc
          rcases List.mem_cons.mp hc with hc | hc
          · exact heq hc
          · exact hmem hc)]

/-- Claim C5: on a duplicate-free normalized vocabulary, the feature encoder
produces a vector of vocabulary length with 1.0 exactly at the indices of the
submitted (vocabulary-validated) tokens and 0.0 elsewhere; the set bits
recover exactly the submitted token set, and any token list with the same
members — in particular one with duplicated tokens — encodes to the same
vector. -/
theorem feature_encoding_roundtrip :
    ∀ (vocabNorm : List String) (tokens : List String),
      vocabNorm.Nodup → (∀ t ∈ tokens, t ∈ vocabNorm) →
      (encodeFeatures vocabNorm tokens).length = vocabNorm.length ∧
      (∀ i, i < vocabNorm.length →
        (encodeFeatures vocabNorm tokens).getD i 0
          = if vocabNorm.getD i "" ∈ tokens then 1 else 0) ∧
      (∀ t, t ∈ tokens ↔ ∃ i, i < vocabNorm.length ∧ vocabNorm.getD i "" = t ∧
        (encodeFeatures vocabNorm tokens).getD i 0 = 1) ∧
      (∀ tokens', (∀ t ∈ tokens', t ∈ vocabNorm) → (∀ t, t ∈ tokens' ↔ t ∈ tokens) →
        encodeFeatures vocabNorm tokens' = encodeFeatures vocabNorm tokens) := by
  intro vocabNorm tokens hnd hsub
  have hrep : (List.replicate vocabNorm.length (0 : ℚ)).length = vocabNorm.length :=
    List.length_replicate _ _
  have hrep0 : ∀ i, (List.replicate vocabNorm.length (0 : ℚ)).getD i 0 = 0 := by
    intro i
    rcases lt_or_ge i vocabNorm.length with h | h
    · rw [List.getD_eq_getElem _ _ (by simpa using h), List.getElem_replicate]
    · rw [List.getD_eq_default _ _ (by simpa using h)]
  have hpoint : ∀ i, i < vocabNorm.length →
      (encodeFeatures vocabNorm tokens).getD i 0
        = if vocabNorm.getD i "" ∈ tokens then 1 else 0 := by
    intro i hi
    rw [encodeFeatures, encodeFeatures_foldl_getD vocabNorm hnd tokens hsub _ hrep i hi,
      hrep0]
  refine ⟨?_, hpoint, ?_, ?_⟩
  · rw [encodeFeatures, encodeFeatures_foldl_length, hrep]
  · intro t
    constructor
    · intro htok
      have ht : t ∈ vocabNorm := hsub t htok
      have hidx : List.indexOf t vocabNorm < vocabNorm.length :=
        List.indexOf_lt_length.mpr ht
      refine ⟨List.indexOf t vocabNorm, hidx, ?_, ?_⟩
      · rw [List.getD_eq_getElem _ _ hidx]
        exact List.getElem_indexOf hidx
      · rw [hpoint _ hidx, if_pos]
        rw [List.getD_eq_getElem _ _ hidx, List.getElem_indexOf hidx]
        exact htok
    · rintro ⟨i, hi, hival, hone⟩
      rw [hpoint i hi] at hone
      by_cases hmem : vocabNorm.getD i "" ∈ tokens
      · rw [← hival]
        exact hmem
      · rw [if_neg hmem] at hone
        exact absurd hone (by norm_num)
  · intro tokens' hsub' hiff
    have hlen' : (encodeFeatures vocabNorm tokens').length = vocabNorm.length := by
      rw [encodeFeatures, encodeFeatures_foldl_length, hrep]
    have hlen : (encodeFeatures vocabNorm tokens).length = vocabNorm.length := by
      rw [encodeFeatures, encodeFeatures_foldl_length, hrep]
    have hpoint' : ∀ i, i < vocabNorm.length →
        (encodeFeatures vocabNorm tokens').getD i 0
          = if vocabNorm.getD i "" ∈ tokens' then 1 else 0 := by
      intro i hi
      rw [encodeFeatures, encodeFeatures_foldl_getD vocabNorm hnd tokens' hsub' _ hrep i hi,
        hrep0]
    refine List.ext_getElem (by rw [hlen', hlen]) ?_
    intro i h1 h2
    have hi : i < vocabNorm.length := by rw [← hlen']; exact h1
    have e1 : (encodeFeatures vocabNorm tokens')[i] =
        (encodeFeatures vocabNorm tokens').getD i 0 :=
      (List.getD_eq_getElem _ _ h1).symm
    have e2 : (encodeFeatures vocabNorm tokens)[i] =
        (encodeFeatures vocabNorm tokens).getD i 0 :=
      (List.getD_eq_getElem _ _ h2).symm
    rw [e1, e2, hpoint' i hi, hpoint i hi]
    exact if_congr (hiff _) rfl rfl

/-- Witness for `feature_encoding_roundtrip`: over the two-entry vocabulary
["headache", "nausea"] the token list ["nausea"] encodes to a vector of
length 2. -/
theorem feature_encoding_roundtrip_witness :
    (["headache", "nausea"] : List String).Nodup ∧
    (∀ t ∈ (["nausea"] : List String), t ∈ (["headache", "nausea"] : List String)) ∧
    (encodeFeatures ["headache", "nausea"] ["nausea"]).length = 2 :=
  ⟨by decide, by decide,
    (feature_encoding_roundtrip ["headache", "nausea"] ["nausea"]
      (by decide) (by decide)).1⟩

lemma argsort_sorted (p : List ℚ) : (argsort p).Sorted (argsortLE p) :=
  List.sorted_insertionSort _ _

lemma argsort_perm (p : List ℚ) : (argsort p).Perm (List.range p.length) :=
  List.perm_insertionSort _ _

lemma argsort_length (p : List ℚ) : (argsort p).length = p.length := by
  rw [(argsort_perm p).length_eq, List.length_range]

lemma argsort_nodup (p : List ℚ) : (argsort p).Nodup :=
  (argsort_perm p).nodup_iff.mpr (List.nodup_range _)

lemma mem_argsort (p : List ℚ) {i : ℕ} : i ∈ argsort p ↔ i < p.length := by
  rw [(argsort_perm p).mem_iff, List.mem_range]

/-- Claim C3 as amended: for every distribution and every top_n ≥ 1 the
selection has length min(top_n, number of classes), consists of distinct
valid class indices, is ordered by strictly descending (probability, index)
lexicographic key — descending probability with ties broken by DESCENDING
original class index — and every selected index beats every non-selected
index in that order (the selected classes are the top_n
highest-probability ones). -/
theorem differential_ranking :
    ∀ (p : List ℚ) (top_n : ℕ), 1 ≤ top_n →
      (topIndices p top_n).length = min top_n p.length ∧
      (∀ i ∈ topIndices p top_n, i < p.length) ∧
      (topIndices p top_n).Nodup ∧
      (topIndices p top_n).Pairwise
        (fun i j => prOf p j < prOf p i ∨ (prOf p j = prOf p i ∧ j < i)) ∧
      (∀ i ∈ topIndices p top_n, ∀ j, j < p.length → j ∉ topIndices p top_n →
        prOf p j < prOf p i ∨ (prOf p j = prOf p i ∧ j < i)) := by
  intro p top_n hn
  have hne : top_n ≠ 0 := by omega
  have hout : topIndices p top_n
      = ((argsort p).drop ((argsort p).length - top_n)).reverse := by
    rw [topIndices, npTakeLast, if_neg hne]
  have hdropnd : ((argsort p).drop ((argsort p).length - top_n)).Nodup :=
    (argsort_nodup p).sublist (List.drop_sublist _ _)
  have houtnd : (topIndices p top_n).Nodup := by
    rw [hout]
    exact List.nodup_reverse.mpr hdropnd
  have hmemout : ∀ i ∈ topIndices p top_n,
      i ∈ (argsort p).drop ((argsort p).length - top_n) := by
    intro i hi
    rw [hout] at hi
    exact List.mem_reverse.mp hi
  refine ⟨?_, ?_, houtnd, ?_, ?_⟩
  · rw [hout, List.length_reverse, List.length_drop, argsort_length]
    omega
  · intro i hi
    exact (mem_argsort p).mp (List.drop_subset _ _ (hmemout i hi))
  · have hdrop : ((argsort p).drop ((argsort p).length - top_n)).Pairwise
        (argsortLE p) :=
      List.Pairwise.sublist (List.drop_sublist _ _) (argsort_sorted p)
    have hrev : (topIndices p top_n).Pairwise (fun i j => argsortLE p j i) := by
      rw [hout]
      exact List.pairwise_reverse.mpr hdrop
    refine (hrev.and houtnd).imp ?_
    rintro i j ⟨hle, hij⟩
    rcases hle with h | ⟨heq, hji⟩
    · exact Or.inl h
    · exact Or.inr ⟨heq, Nat.lt_of_le_of_ne hji (Ne.symm hij)⟩
  · intro i hi j hj hjout
    have hil : i ∈ (argsort p).drop ((argsort p).length - top_n) := hmemout i hi
    have hjl : j ∈ argsort p := (mem_argsort p).mpr hj
    have hjtake : j ∈ (argsort p).take ((argsort p).length - top_n) := by
      rw [← List.take_append_drop ((argsort p).length - top_n) (argsort p)] at hjl
      rcases List.mem_append.mp hjl with h | h
      · exact h
      · exact absurd (by rw [hout]; exact List.mem_reverse.mpr h) hjout
    have hle : argsortLE p j i :=
      (argsort_sorted p).rel_of_mem_take_of_mem_drop hjtake hil
    have hij : i ≠ j := fun e => hjout (e ▸ hi)
    rcases hle with h | ⟨heq, hji⟩
    · exact Or.inl h
    · exact Or.inr ⟨heq, Nat.lt_of_le_of_ne hji (Ne.symm hij)⟩

/-- Witness for `differential_ranking` at the one-class distribution [0] with
top_n = 1. -/
theorem differential_ranking_witness :
    1 ≤ 1 ∧
    ((topIndices [(0 : ℚ)] 1).length = min 1 [(0 : ℚ)].length ∧
     (∀ i ∈ topIndices [(0 : ℚ)] 1, i < [(0 : ℚ)].length) ∧
     (topIndices [(0 : ℚ)] 1).Nodup ∧
     (topIndices [(0 : ℚ)] 1).Pairwise
       (fun i j => prOf [(0 : ℚ)] j < prOf [(0 : ℚ)] i ∨
         (prOf [(0 : ℚ)] j = prOf [(0 : ℚ)] i ∧ j < i)) ∧
     (∀ i ∈ topIndices [(0 : ℚ)] 1, ∀ j, j < [(0 : ℚ)].length →
        j ∉ topIndices [(0 : ℚ)] 1 →
        prOf [(0 : ℚ)] j < prOf [(0 : ℚ)] i ∨
          (prOf [(0 : ℚ)] j = prOf [(0 : ℚ)] i ∧ j < i))) :=
  ⟨le_refl 1, differential_ranking [(0 : ℚ)] 1 (le_refl 1)⟩

/-- Claim C3 counterexample: on the example given in the spec — four classes A, B,
C, D with probabilities 0.1, 0.6, 0.2, 0.1 and top_n = 3 — the assembler
returns [B, C, D], not the claimed [B, C, A]: the tied classes A and D are
resolved in favour of the LARGER original index. -/
theorem differential_ranking_counterexample :
    (topIndices [1/10, 6/10, 2/10, 1/10] 3).map
        (fun i => ["A", "B", "C", "D"].getD i "") = ["B", "C", "D"] ∧
    (topIndices [1/10, 6/10, 2/10, 1/10] 3).map
        (fun i => ["A", "B", "C", "D"].getD i "") ≠ ["B", "C", "A"] := by
  have h : topIndices [1/10, 6/10, 2/10, 1/10] 3 = [1, 2, 3] := by
    norm_num [topIndices, argsort, npTakeLast, argsortLE, prOf,
      List.insertionSort, List.orderedInsert, List.range_succ]
  rw [h]
  exact ⟨by decide, by decide⟩

/-- Claim C10 (code bug): every named-field metabolic request is rejected
with the 400 "missing HbA1c/BMI" error, regardless of its content and of the
classifier — in particular a request that does provide HbA1c and BMI never
reaches the prediction, contradicting the intended behaviour encoded in the
dead dict-access fallback and the default-filling loop. -/
theorem named_fields_always_rejected :
    ∀ (assess : List ℚ → RiskAssessment) (req : DiabetesNamedRequest),
      predictDiabetesNamed assess req =
        .error "Missing required parameters: HbA1c and BMI must be provided" := by
  intro assess req
  rfl
